import Mathlib

/-!
# go-straava: a verification development of the Strava API client

Shallow embedding of `client.go`, `pagination.go` and the record types of
`types.go`.

Conventions of the embedding:

* Go `string` values are Lean `String`s, `[]byte` payloads are lists of bytes.
* A Go pointer that may be `nil` is an `Option`.  Where the package only reads
  through a pointer the `Option` holds the value pointed to; `NextPage` writes
  through one, so for it the fields of a `Pagination` are addresses into a
  memory of `int` variables, and two fields may hold the same address.
* Go `int` / `int64` values are `Int`s, an `int` being 64 bits wide; the one
  arithmetic operation of the package (`NextPage`) wraps as Go's signed addition
  does.
* Go `error` values are `GoError` records carrying their message; a `nil` error
  is `none`.  A pair `(record, error)` returned by an operation is a pair of
  options, so that both, one or none of them can be present.
* The standard library (`fmt`, `net/url`, `encoding/json`, `oauth2`, `net/http`)
  is not part of the repository.  What the package needs from it is either
  written out from its documented behaviour (`Sprintf` for plain directives,
  `url.Values`, `strings.ReplaceAll`) or taken as a parameter (`Lib`).
-/

namespace Strava

/-! ## Basic types -/

/-- Byte of a `[]byte` payload. -/
abbrev Byte := UInt8

/-- Value of Go's builtin interface `error`, identified by its message. -/
structure GoError where
  msg : String
  deriving DecidableEq, Repr, Inhabited

/-- Two's complement wrap-around of a Go 64 bit signed integer. -/
def wrapInt (x : Int) : Int := (x + 2 ^ 63) % 2 ^ 64 - 2 ^ 63

/-- Largest value of a Go 64 bit signed integer. -/
def maxInt : Int := 2 ^ 63 - 1

/-- Smallest value of a Go 64 bit signed integer. -/
def minInt : Int := -(2 ^ 63)

/-- Decimal rendering of an integer, as the verb `%d` of package `fmt` prints it. -/
def formatInt (n : Int) : String := toString n

/-! ## `types.go`: time filter and pagination -/

/-- Value of `time.Time`, reduced to what the package reads of it: the instant
as seconds since the Unix epoch and the nanoseconds within that second. -/
structure Time where
  sec : Int
  nsec : Nat
  deriving DecidableEq, Repr, Inhabited

/-- Method `Time.Unix`: seconds elapsed since the Unix epoch. -/
def Time.Unix (t : Time) : Int := t.sec

/-- TimeFilter to restrict api requests with before and after values. -/
structure TimeFilter where
  Before : Option Time
  After : Option Time
  deriving DecidableEq, Repr, Inhabited

/-- Pagination for api calls: which page, and how many records per page.  Each
field is `nil` or the value of the `int` it points to. -/
structure Pagination where
  Page : Option Int
  PerPage : Option Int
  deriving DecidableEq, Repr, Inhabited

/-! ## `pagination.go` -/

/-- NewPagination returns a pagination struct; `nil` if both inputs are zero. -/
def NewPagination (page per_page : Int) : Option Pagination :=
  if page = 0 ∧ per_page = 0 then none
  else
    let pagination : Pagination := { Page := none, PerPage := none }
    let pagination := if page > 0 then { pagination with Page := some page } else pagination
    let pagination :=
      if per_page > 0 then { pagination with PerPage := some per_page } else pagination
    some pagination

/-- Memory of the `int` variables that `Pagination` fields point to: the value
stored at each address. -/
abbrev Memory := Nat → Int

/-- Pagination struct with its `*int` fields as they are: each field is `nil`
or the address of an `int` variable, and both may hold the same address. -/
structure PaginationPtr where
  Page : Option Nat
  PerPage : Option Nat
  deriving DecidableEq, Repr, Inhabited

/-- The pagination as read through its pointers in a memory. -/
def PaginationPtr.load (pagination : PaginationPtr) (mem : Memory) : Pagination :=
  { Page := pagination.Page.map mem, PerPage := pagination.PerPage.map mem }

/-- NextPage, helper to move to next page: `*pagination.Page++` writes the
incremented value to the variable `Page` points to; the struct is not assigned. -/
def PaginationPtr.NextPage (pagination : PaginationPtr) (mem : Memory) : Memory :=
  match pagination.Page with
  | some a => Function.update mem a (wrapInt (mem a + 1))
  | none => mem

/-! ## `net/url`: query values -/

/-- Type `url.Values`, a map from keys to the list of their values, kept as an
association list with distinct keys, in the order the keys were added. -/
abbrev Values := List (String × List String)

/-- The values stored under a key: the map access `v[key]`. -/
def Values.lookup : Values → String → List String
  | [], _ => []
  | (k, vs) :: rest, key => if k = key then vs else Values.lookup rest key

/-- Method `Values.Add`: appends the value to the values of the key. -/
def Values.Add : Values → String → String → Values
  | [], key, value => [(key, [value])]
  | (k, vs) :: rest, key, value =>
    if k = key then (k, vs ++ [value]) :: rest else (k, vs) :: Values.Add rest key value

/-- Upper case hexadecimal digit of a nibble. -/
def upperhex (n : Nat) : Char :=
  "0123456789ABCDEF".data.getD n '0'

/-- Characters `url.QueryEscape` leaves as they are: the unreserved ones. -/
def isUnreserved (c : Char) : Bool :=
  c.isAlphanum || c = '-' || c = '_' || c = '.' || c = '~'

/-- Escaping of one character by `url.QueryEscape`: unreserved characters stay,
a space becomes `+`, every other byte of the UTF-8 encoding becomes `%XX`. -/
def escapeChar (c : Char) : List Char :=
  if isUnreserved c then [c]
  else if c = ' ' then ['+']
  else (String.utf8EncodeChar c).flatMap
    fun b => ['%', upperhex (b.toNat / 16), upperhex (b.toNat % 16)]

/-- Function `url.QueryEscape`. -/
def QueryEscape (s : String) : String := String.mk (s.data.flatMap escapeChar)

/-- Go's `<` on strings: lexicographic order of the characters (the order of
the code points is the order of their UTF-8 encodings). -/
def strLt (a b : String) : Bool := decide (a.data < b.data)

/-- Insertion of a key into a list of keys sorted in ascending order. -/
def insertKey (k : String) : List String → List String
  | [] => [k]
  | x :: xs => if strLt k x then k :: x :: xs else x :: insertKey k xs

/-- Keys of the values in ascending order (`slices.Sort(keys)`). -/
def sortKeys : List String → List String
  | [] => []
  | k :: ks => insertKey k (sortKeys ks)

/-- Method `Values.Encode`: `key=value` pairs, sorted by key, joined by `&`. -/
def Values.Encode (v : Values) : String :=
  "&".intercalate
    ((sortKeys (v.map Prod.fst)).flatMap fun k =>
      (Values.lookup v k).map fun x => QueryEscape k ++ "=" ++ QueryEscape x)

/-! ## `client.go`: query builder -/

/-- AppendTimeFilter appends given time filter to passed query.
Nil values for Before and After will be skipped. -/
def appendTimeFilter (query : Values) (timeFilter : Option TimeFilter) : Values :=
  match timeFilter with
  | none => query
  | some tf =>
    let query := match tf.Before with
      | some b => Values.Add query "before" (formatInt b.Unix)
      | none => query
    match tf.After with
    | some a => Values.Add query "after" (formatInt a.Unix)
    | none => query

/-- AppendPagination will add given page or per page values to passed query.
Nil values for page and per page will be skipped. -/
def appendPagination (query : Values) (pagination : Option Pagination) : Values :=
  match pagination with
  | none => query
  | some p =>
    let query := match p.Page with
      | some n => Values.Add query "page" (formatInt n)
      | none => query
    match p.PerPage with
    | some n => Values.Add query "per_page" (formatInt n)
    | none => query

/-! ## `strings.ReplaceAll` and the empty string fixup -/

/-- The conversion `[]byte(s)`: the UTF-8 encoding of a string. -/
def bytesOf (s : String) : List Byte := s.data.flatMap String.utf8EncodeChar

/-- Left to right scan of `strings.ReplaceAll` for a non-empty `old`: `skip` counts
the bytes of the current match that are still to be dropped. -/
def replaceFrom (old new : List Byte) : Nat → List Byte → List Byte
  | _, [] => []
  | skip + 1, _ :: rest => replaceFrom old new skip rest
  | 0, c :: rest =>
    if old.isPrefixOf (c :: rest) then new ++ replaceFrom old new (old.length - 1) rest
    else c :: replaceFrom old new 0 rest

/-- Function `strings.ReplaceAll` for a non-empty `old` (the package calls it with
a two byte `old` only): the non-overlapping instances of `old`, found from left
to right, are replaced by `new`. -/
def ReplaceAll (s old new : List Byte) : List Byte := replaceFrom old new 0 s

/-- CleanEmptyStrings replaces all occurences of "" in given content with an
empty Json object. -/
def cleanEmptyStrings (content : List Byte) : List Byte :=
  ReplaceAll content (bytesOf "\"\"") (bytesOf "\x7b\x7d")

/-- The byte `"`. -/
def dquote : Byte := 34

/-- Two adjacent double quotes occur somewhere in the payload. -/
def hasEmptyString : List Byte → Bool
  | a :: b :: rest => (a == dquote && b == dquote) || hasEmptyString (b :: rest)
  | _ => false

/-! ## Records of `types.go` -/

/-- Go `float64` value, kept as its IEEE 754 bit pattern (the package never
computes with one). -/
structure Float64 where
  bits : Nat
  deriving DecidableEq, Repr, Inhabited

/-- A roll-up of metrics pertaining to a set of activities. -/
structure ActivityTotal where
  Count : Int
  Distance : Float64
  MovingTime : Int
  ElapsedTime : Int
  ElevationGain : Float64
  AchievementCount : Int
  deriving DecidableEq, Repr, Inhabited

/-- A set of rolled-up statistics and totals for an athlete. -/
structure ActivityStats where
  BiggestRideDistance : Float64
  BiggestGlimbElevationGain : Float64
  RecentRideTotals : ActivityTotal
  RecentRunTotals : ActivityTotal
  RecentSwimTotals : ActivityTotal
  YearToDateRideTotals : ActivityTotal
  YearToDateRunTotals : ActivityTotal
  YearToDateSwimTotals : ActivityTotal
  AllRideotals : ActivityTotal
  AllRunTotals : ActivityTotal
  AllSwimTotals : ActivityTotal
  deriving DecidableEq, Repr, Inhabited

/-- Description of a single activity. -/
structure SummaryActivity where
  Id : Int
  Name : String
  Distance : Float64
  MovingTime : Int
  SportType : String
  StartDateLocal : Time
  deriving DecidableEq, Repr, Inhabited

/-- DetailedAthlete contains detail information of an athlete. -/
structure DetailedAthlete where
  Id : Int
  deriving DecidableEq, Repr, Inhabited

/-- Error occurred in an api call. -/
structure Error where
  Code : String
  Field : String
  Resource : String
  deriving DecidableEq, Repr, Inhabited

/-- Fault encapsulates the errors that may be returned from the API. -/
structure Fault where
  Errors : List Error
  Message : String
  deriving DecidableEq, Repr, Inhabited

/-- BASE_URL for Strava API v3. -/
def BASE_URL : String := "https://www.strava.com/api/v3"

/-! ## Requests, responses and the standard library -/

/-- Operand of a `fmt.Sprintf` call: the package passes strings, `int`s and
`int64`s. -/
inductive Arg where
  | str (s : String)
  | int (n : Int)
  | int64 (n : Int)
  deriving DecidableEq, Repr

/-- Value of `oauth2.Token`, reduced to the fields the header is built from. -/
structure Token where
  AccessToken : String
  TokenType : String
  deriving DecidableEq, Repr, Inhabited

/-- Value of `http.Request` as built by `http.NewRequest(method, url, nil)`:
`RawQuery` is `none` as long as the query is the one of `URL`. -/
structure Request where
  Method : String
  URL : String
  RawQuery : Option String
  Header : List (String × String)
  deriving DecidableEq, Repr, Inhabited

/-- Body of a response as `ioutil.ReadAll` returns it: the bytes read, and the
error that stopped the reading, if any. -/
structure Body where
  data : List Byte
  err : Option GoError
  deriving DecidableEq, Repr, Inhabited

/-- Value of `http.Response`. -/
structure Response where
  StatusCode : Int
  Body : Body
  deriving DecidableEq, Repr, Inhabited

/-- What the package takes from the standard library without this development
writing it out. -/
structure Lib where
  /-- Package `fmt`: output for the rest of a format that starts, right after a
  `%`, with a flag, a width, a precision or an argument index, given the operands
  not yet consumed. -/
  fmtDirective : List Char → List Arg → List Char
  /-- Package `fmt`: `printArg` for a verb and operand other than `%s`, `%d` and
  `%v` on strings and integers. -/
  fmtVerb : Char → Arg → List Char
  /-- Package `encoding/json`: `checkValid`, the syntax check `Unmarshal` runs
  before it touches its target. -/
  checkValid : List Byte → Option GoError
  /-- Package `encoding/json`: decoding of valid JSON into a `Fault`. -/
  decodeFault : List Byte → Fault → Fault × Option GoError
  /-- Package `encoding/json`: decoding of valid JSON into a `DetailedAthlete`. -/
  decodeAthlete : List Byte → DetailedAthlete → DetailedAthlete × Option GoError
  /-- Package `encoding/json`: decoding of valid JSON into a slice of activities. -/
  decodeActivities : List Byte → List SummaryActivity → List SummaryActivity × Option GoError
  /-- Package `encoding/json`: decoding of valid JSON into an `ActivityStats`. -/
  decodeStats : List Byte → ActivityStats → ActivityStats × Option GoError
  /-- Package `net/url`: `URL.Query` of the request built for a URL string. -/
  urlQuery : String → Values
  /-- Package `oauth2`: `Token.Type`. -/
  tokenType : Token → String

/-- Function `json.Unmarshal`: a syntax error leaves the target untouched,
otherwise the decoder fills it and reports what did not fit. -/
def Unmarshal {α : Type} (lib : Lib) (decode : List Byte → α → α × Option GoError)
    (data : List Byte) (v : α) : α × Option GoError :=
  match lib.checkValid data with
  | some err => (v, some err)
  | none => decode data v

/-! ## `fmt.Sprintf` -/

/-- Name of the Go type of an operand, as `reflect.TypeOf(arg).String()` gives it. -/
def Arg.typeName : Arg → String
  | .str _ => "string"
  | .int _ => "int"
  | .int64 _ => "int64"

/-- Operand printed with the verb `%v`. -/
def Arg.value : Arg → String
  | .str s => s
  | .int n => formatInt n
  | .int64 n => formatInt n

/-- Function `printArg` of package `fmt` for a directive without flags: `%s` and
`%v` print a string, `%d` and `%v` an integer in decimal, `%s` on an integer and
`%d` on a string are bad verbs. -/
def printArg (lib : Lib) (verb : Char) (arg : Arg) : List Char :=
  if verb = 'v' then arg.value.data
  else if verb = 's' then
    match arg with
    | .str s => s.data
    | _ => ("%!s(" ++ arg.typeName ++ "=" ++ arg.value ++ ")").data
  else if verb = 'd' then
    match arg with
    | .str s => ("%!d(string=" ++ s ++ ")").data
    | _ => arg.value.data
  else lib.fmtVerb verb arg

/-- Operands left over at the end of the format: `%!(EXTRA type=value, ...)`. -/
def extraArgs (a : List Arg) : List Char :=
  match a with
  | [] => []
  | _ => ("%!(EXTRA " ++ ", ".intercalate (a.map fun x => x.typeName ++ "=" ++ x.value)
      ++ ")").data

/-- A character that, right after `%`, starts flags, an argument index, a width
or a precision. -/
def startsSpec (c : Char) : Bool :=
  c = '#' || c = '0' || c = '+' || c = '-' || c = ' ' || c = '[' || c = '*' || c = '.'
    || c.isDigit

/-- Function `doPrintf` of package `fmt`: text is copied, `%%` is a percent sign,
a plain verb consumes the next operand, a verb without operand prints
`%!verb(MISSING)`, a `%` at the end prints `%!(NOVERB)`. -/
def doPrintf (lib : Lib) : List Char → List Arg → List Char
  | [], a => extraArgs a
  | c :: rest, a =>
    if c = '%' then
      match rest with
      | [] => "%!(NOVERB)".data ++ extraArgs a
      | verb :: rest1 =>
        if startsSpec verb then lib.fmtDirective rest a
        else if verb = '%' then '%' :: doPrintf lib rest1 a
        else
          match a with
          | [] => ("%!" ++ verb.toString ++ "(MISSING)").data ++ doPrintf lib rest1 []
          | arg :: a1 => printArg lib verb arg ++ doPrintf lib rest1 a1
    else c :: doPrintf lib rest a

/-- Function `fmt.Sprintf`. -/
def Sprintf (lib : Lib) (format : String) (a : List Arg) : String :=
  String.mk (doPrintf lib format.data a)

/-! ## `client.go`: the client -/

/-- Client handles requests to Strava APIs.  The token source and the HTTP client
act on the state `σ` of the world outside the program. -/
structure Client (σ : Type) where
  baseUrl : String
  athleteId : Option Int
  tokenSource : σ → Except GoError Token × σ
  httpClient : Request → σ → Except GoError Response × σ

/-- The world a client runs in: the state outside the program, and the requests
handed to the HTTP client so far. -/
structure World (σ : Type) where
  ext : σ
  sent : List Request

/-- New returns an api client with BASE_URL as default. -/
def New {σ : Type} (tokenSource : σ → Except GoError Token × σ)
    (httpClient : Request → σ → Except GoError Response × σ) : Client σ :=
  { baseUrl := BASE_URL, athleteId := none, tokenSource := tokenSource,
    httpClient := httpClient }

/-- WithBaseUrl set given url as base for all api calls. -/
def Client.WithBaseUrl {σ : Type} (client : Client σ) (baseUrl : String) : Client σ :=
  { client with baseUrl := baseUrl }

/-- WithAthleteId assigns given athlete id. -/
def Client.WithAthleteId {σ : Type} (client : Client σ) (athleteId : Int) : Client σ :=
  { client with athleteId := some athleteId }

/-- ApiEndpoint add base url prefix to given api endpoint. -/
def apiEndpoint {σ : Type} (lib : Lib) (client : Client σ) (path : String)
    (args : List Arg) : String :=
  Sprintf lib (client.baseUrl ++ path) args

/-- Function `http.NewRequest(method, url, nil)`.  The package discards its
error, so the embedding covers the URL strings that `net/url` accepts. -/
def NewRequest (method url : String) : Request :=
  { Method := method, URL := url, RawQuery := none, Header := [] }

/-- Method `Token.SetAuthHeader`: sets the `Authorization` header. -/
def Token.SetAuthHeader (lib : Lib) (token : Token) (req : Request) : Request :=
  { req with Header :=
      (req.Header.filter fun h => h.1 != "Authorization")
        ++ [("Authorization", lib.tokenType token ++ " " ++ token.AccessToken)] }

/-- AddToken retrieves an OAuth2 token from assigned token source and add it as
Authorization header to given request. -/
def addToken {σ : Type} (lib : Lib) (client : Client σ) (req : Request) (w : World σ) :
    (Option GoError × Request) × World σ :=
  match client.tokenSource w.ext with
  | (.error err, ext) => ((some err, req), { w with ext := ext })
  | (.ok token, ext) => ((none, token.SetAuthHeader lib req), { w with ext := ext })

/-- Method `http.Client.Do`: the request is handed to the transport. -/
def httpDo {σ : Type} (client : Client σ) (req : Request) (w : World σ) :
    Except GoError Response × World σ :=
  match client.httpClient req w.ext with
  | (res, ext) => (res, { ext := ext, sent := w.sent ++ [req] })

/-- Function `ioutil.ReadAll` on the body of a response. -/
def ReadAll (body : Body) : List Byte × Option GoError := (body.data, body.err)

/-- FaultReponseAsError converts API response body of type Fault into an error. -/
def faultReponseAsError (lib : Lib) (res : Response) : GoError :=
  let responseBody := (ReadAll res.Body).1
  let fault := (Unmarshal lib lib.decodeFault responseBody { Errors := [], Message := "" }).1
  let errMsg := Sprintf lib "%d %s" [.int res.StatusCode, .str fault.Message]
  let errMsg :=
    match fault.Errors with
    | e :: _ => Sprintf lib "%s: %s %s %s" [.str errMsg, .str e.Resource, .str e.Field, .str e.Code]
    | [] => errMsg
  { msg := errMsg }

/-- SendRequest will add auth token and performs given request to Strava's API. -/
def sendRequest {σ : Type} (lib : Lib) (client : Client σ) (req : Request) (w : World σ) :
    (List Byte × Option GoError) × World σ :=
  match addToken lib client req w with
  | ((some err, _), w1) => (([], some err), w1)
  | ((none, req1), w1) =>
    match httpDo client req1 w1 with
    | (.error err, w2) => (([], some err), w2)
    | (.ok res, w2) =>
      if res.StatusCode > 399 then (([], some (faultReponseAsError lib res)), w2)
      else (ReadAll res.Body, w2)

/-- The request of `AuthorizedAthlete`: `GET` on the endpoint `/athlete`. -/
def athleteRequest {σ : Type} (lib : Lib) (client : Client σ) : Request :=
  NewRequest "GET" (apiEndpoint lib client "/athlete" [])

/-- The request of `AthleteActivities`: `GET` on the endpoint `/athlete/activities`,
its query extended by the time filter and the pagination and encoded again. -/
def activitiesRequest {σ : Type} (lib : Lib) (client : Client σ)
    (timeFilter : Option TimeFilter) (pagination : Option Pagination) : Request :=
  let req := NewRequest "GET" (apiEndpoint lib client "/athlete/activities" [])
  let query := lib.urlQuery req.URL
  let query := appendTimeFilter query timeFilter
  let query := appendPagination query pagination
  { req with RawQuery := some query.Encode }

/-- The request of `AthleteStats`: `GET` on the endpoint `/athletes/%d/stats` of
the athlete. -/
def statsRequest {σ : Type} (lib : Lib) (client : Client σ) (athleteId : Int) : Request :=
  NewRequest "GET" (apiEndpoint lib client "/athletes/%d/stats" [.int64 athleteId])

/-- AuthorizedAthlete try to fetch current athlete, defined by used auth tokens. -/
def AuthorizedAthlete {σ : Type} (lib : Lib) (client : Client σ) (w : World σ) :
    (Option DetailedAthlete × Option GoError) × World σ :=
  let req := athleteRequest lib client
  match sendRequest lib client req w with
  | ((_, some err), w1) => ((none, some err), w1)
  | ((responseBody, none), w1) =>
    match Unmarshal lib lib.decodeAthlete responseBody { Id := 0 } with
    | (detailedAthlete, jsonErr) => ((some detailedAthlete, jsonErr), w1)

/-- AthleteActivities lists available activities for an athlete. -/
def AthleteActivities {σ : Type} (lib : Lib) (client : Client σ)
    (timeFilter : Option TimeFilter) (pagination : Option Pagination) (w : World σ) :
    (Option (List SummaryActivity) × Option GoError) × World σ :=
  let req := activitiesRequest lib client timeFilter pagination
  match sendRequest lib client req w with
  | ((_, some err), w1) => ((none, some err), w1)
  | ((responseBody, none), w1) =>
    match Unmarshal lib lib.decodeActivities responseBody [] with
    | (summaryActivity, jsonErr) => ((some summaryActivity, jsonErr), w1)

/-- GetAthleteId will return local athlete id, assigned by WithAthleteId method,
or try to request it using AuthorizedAthlete method.  The last case of the lookup
is the dereference of a `nil` record, which `AuthorizedAthlete` never returns
without an error. -/
def getAthleteId {σ : Type} (lib : Lib) (client : Client σ) (w : World σ) :
    (Option Int × Option GoError) × Client σ × World σ :=
  match client.athleteId with
  | none =>
    match AuthorizedAthlete lib client w with
    | ((_, some err), w1) => ((none, some err), client, w1)
    | ((some detailedAthlete, none), w1) =>
      ((some detailedAthlete.Id, none),
        { client with athleteId := some detailedAthlete.Id }, w1)
    | ((none, none), w1) => ((none, none), client, w1)
  | some athleteId => ((some athleteId, none), client, w)

/-- AthleteStats returns summarized athlete stats.  The case of an absent id
without an error is the dereference of a `nil` id, which `getAthleteId` never
returns. -/
def AthleteStats {σ : Type} (lib : Lib) (client : Client σ) (w : World σ) :
    (Option ActivityStats × Option GoError) × Client σ × World σ :=
  match getAthleteId lib client w with
  | ((_, some err), client1, w1) => ((none, some err), client1, w1)
  | ((none, none), client1, w1) => ((none, none), client1, w1)
  | ((some athleteId, none), client1, w1) =>
    let req := statsRequest lib client1 athleteId
    match sendRequest lib client1 req w1 with
    | ((_, some err), w2) => ((none, some err), client1, w2)
    | ((responseBody, none), w2) =>
      match Unmarshal lib lib.decodeStats (cleanEmptyStrings responseBody) default with
      | (activityStats, jsonErr) => ((some activityStats, jsonErr), client1, w2)


/-! ## `test_utils.go` and sample collaborators -/

/-- Token returns a dummy token for testing.  If `shouldReturnError` is true an
error will be returned (`tokenSourceMock` of `test_utils.go`). -/
def tokenSourceMock {σ : Type} (shouldReturnError : Bool) (s : σ) : Except GoError Token × σ :=
  if shouldReturnError then (.error { msg := "An Error has occurred." }, s)
  else (.ok { AccessToken := "<ACCESS_TOKEN>", TokenType := "Bearer" }, s)

/-- Body of a well-formed athlete document. -/
def athleteJson : List Byte := bytesOf "\x7b\"id\":1234567890987654321\x7d"

/-- Body of a well-formed fault document with two structured errors. -/
def faultJson : List Byte :=
  bytesOf ("\x7b\"message\":\"Bad Request\",\"errors\":["
    ++ "\x7b\"resource\":\"Athlete\",\"field\":\"id\",\"code\":\"invalid\"\x7d,"
    ++ "\x7b\"resource\":\"Activity\",\"field\":\"name\",\"code\":\"missing\"\x7d]\x7d")

/-- A server that answers every request with status 200 and the given body. -/
def serveBody (body : List Byte) (_ : Request) (s : Unit) : Except GoError Response × Unit :=
  (.ok { StatusCode := 200, Body := { data := body, err := none } }, s)

/-- A server that answers every request with status 500 and the fault document
(`serveError` of `client_test.go`). -/
def serveError (_ : Request) (s : Unit) : Except GoError Response × Unit :=
  (.ok { StatusCode := 500, Body := { data := faultJson, err := none } }, s)

/-- A host that cannot be reached. -/
def unreachableHost (_ : Request) (s : Unit) : Except GoError Response × Unit :=
  (.error { msg := "connection refused" }, s)

/-- The standard library on the sample documents: `encoding/json` accepts a
payload that starts with a brace or a bracket, decodes the two sample documents
and reports a type mismatch for any other; the parts of `fmt` left open print
nothing. -/
def sampleLib : Lib where
  fmtDirective := fun _ _ => []
  fmtVerb := fun _ _ => []
  checkValid := fun data =>
    if data.head? = some 123 ∨ data.head? = some 91 then none
    else some { msg := "invalid character looking for beginning of value" }
  decodeFault := fun data v =>
    if data = faultJson then
      ({ Message := "Bad Request",
         Errors := [{ Code := "invalid", Field := "id", Resource := "Athlete" },
                    { Code := "missing", Field := "name", Resource := "Activity" }] }, none)
    else (v, some { msg := "json: cannot unmarshal" })
  decodeAthlete := fun data v =>
    if data = athleteJson then ({ Id := 1234567890987654321 }, none)
    else (v, some { msg := "json: cannot unmarshal" })
  decodeActivities := fun _ v => (v, some { msg := "json: cannot unmarshal" })
  decodeStats := fun _ v => (v, some { msg := "json: cannot unmarshal" })
  urlQuery := fun _ => []
  tokenType := fun t => t.TokenType

/-- Client for the tests: the mock token source and the given server
(`clientForTest` of `client_test.go`). -/
def clientForTest (shouldReturnError : Bool)
    (server : Request → Unit → Except GoError Response × Unit) : Client Unit :=
  New (tokenSourceMock shouldReturnError) server

/-- The world before any request was sent. -/
def freshWorld : World Unit := { ext := (), sent := [] }

/-! ## Decimal digits and escaping -/

theorem digitChar_unreserved (m : Nat) (h : m < 10) : isUnreserved (Nat.digitChar m) = true := by
  revert m
  decide

theorem toDigitsCore_unreserved (fuel n : Nat) (ds : List Char)
    (hds : ∀ c ∈ ds, isUnreserved c = true) :
    ∀ c ∈ Nat.toDigitsCore 10 fuel n ds, isUnreserved c = true := by
  induction fuel generalizing n ds with
  | zero => simpa [Nat.toDigitsCore] using hds
  | succ fuel ih =>
    have hd : isUnreserved (Nat.digitChar (n % 10)) = true :=
      digitChar_unreserved _ (Nat.mod_lt _ (by decide))
    have hcons : ∀ c ∈ Nat.digitChar (n % 10) :: ds, isUnreserved c = true := by
      intro c hc
      rcases List.mem_cons.mp hc with h | h
      · rw [h]; exact hd
      · exact hds c h
    unfold Nat.toDigitsCore
    simp only []
    split
    · exact hcons
    · exact ih _ _ hcons

theorem natRepr_unreserved (n : Nat) : ∀ c ∈ (Nat.repr n).data, isUnreserved c = true := by
  unfold Nat.repr Nat.toDigits
  simp only [List.asString]
  exact toDigitsCore_unreserved _ _ _ (by simp)

theorem formatInt_unreserved (n : Int) : ∀ c ∈ (formatInt n).data, isUnreserved c = true := by
  cases n with
  | ofNat m => exact natRepr_unreserved m
  | negSucc m =>
    intro c hc
    have : (formatInt (Int.negSucc m)).data = '-' :: (Nat.repr (m + 1)).data := rfl
    rw [this] at hc
    rcases List.mem_cons.mp hc with h | h
    · rw [h]; decide
    · exact natRepr_unreserved _ c h

theorem flatMap_escapeChar (l : List Char) (h : ∀ c ∈ l, isUnreserved c = true) :
    l.flatMap escapeChar = l := by
  induction l with
  | nil => rfl
  | cons c cs ih =>
    have hc : isUnreserved c = true := h c (List.mem_cons_self _ _)
    have hcs := ih (fun d hd => h d (List.mem_cons_of_mem _ hd))
    simp [List.flatMap_cons, escapeChar, hc, hcs]

theorem QueryEscape_formatInt (n : Int) : QueryEscape (formatInt n) = formatInt n := by
  unfold QueryEscape
  rw [flatMap_escapeChar _ (formatInt_unreserved n)]


/-! ## Encoding of small queries -/

theorem Encode_nil : Values.Encode [] = "" := rfl

theorem Encode_one (k x : String) :
    Values.Encode [(k, [x])] = QueryEscape k ++ "=" ++ QueryEscape x := by
  simp [Values.Encode, sortKeys, insertKey, Values.lookup, String.intercalate,
    String.intercalate.go]

theorem Encode_two (k1 k2 x1 x2 : String) (hlt : strLt k1 k2 = true) (hne : k1 ≠ k2) :
    Values.Encode [(k1, [x1]), (k2, [x2])]
      = QueryEscape k1 ++ "=" ++ QueryEscape x1 ++ "&" ++ (QueryEscape k2 ++ "=" ++ QueryEscape x2) := by
  have hne2 : ¬ k2 = k1 := fun h => hne h.symm
  simp [Values.Encode, sortKeys, insertKey, Values.lookup, String.intercalate,
    String.intercalate.go, hlt, hne, hne2]

theorem Encode_two_swapped (k1 k2 x1 x2 : String) (hlt : strLt k1 k2 = true) (hne : k1 ≠ k2) :
    Values.Encode [(k2, [x2]), (k1, [x1])]
      = QueryEscape k1 ++ "=" ++ QueryEscape x1 ++ "&" ++ (QueryEscape k2 ++ "=" ++ QueryEscape x2) := by
  have hne2 : ¬ k2 = k1 := fun h => hne h.symm
  have hlt2 : strLt k2 k1 = false := by
    unfold strLt at hlt ⊢
    simp only [decide_eq_true_eq, decide_eq_false_iff_not] at hlt ⊢
    exact fun h => absurd (lt_trans hlt h) (lt_irrefl _)
  simp [Values.Encode, sortKeys, insertKey, Values.lookup, String.intercalate,
    String.intercalate.go, hlt, hlt2, hne, hne2]


theorem Add_nil (k x : String) : Values.Add [] k x = [(k, [x])] := rfl

theorem lookup_Add (q : Values) (k x key : String) :
    (Values.Add q k x).lookup key = q.lookup key ++ (if key = k then [x] else []) := by
  induction q with
  | nil =>
    by_cases h : k = key
    · simp [Values.Add, Values.lookup, h]
    · have h2 : ¬ key = k := fun e => h e.symm
      simp [Values.Add, Values.lookup, h, h2]
  | cons e rest ih =>
    obtain ⟨k0, vs⟩ := e
    by_cases h0 : k0 = k
    · subst h0
      by_cases h1 : k0 = key
      · subst h1
        simp [Values.Add, Values.lookup]
      · have h2 : ¬ key = k0 := fun e => h1 e.symm
        simp [Values.Add, Values.lookup, h1, h2]
    · by_cases h1 : k0 = key
      · subst h1
        simp [Values.Add, Values.lookup, h0]
      · simp [Values.Add, Values.lookup, h0, h1, ih]

theorem filter_Add (q : Values) (k x : String) (keep : String → Bool) (hk : keep k = false) :
    (Values.Add q k x).filter (fun e => keep e.1) = q.filter (fun e => keep e.1) := by
  induction q with
  | nil => simp [Values.Add, hk]
  | cons e rest ih =>
    obtain ⟨k0, vs⟩ := e
    by_cases h0 : k0 = k
    · subst h0
      simp [Values.Add, List.filter_cons, hk]
    · simp [Values.Add, h0, List.filter_cons, ih]

/-- Claim C7: for all integers `page` and `per_page`, appending
`NewPagination page per_page` to an empty query and encoding it yields
`page=<page>` when `page > 0` and `per_page=<per_page>` when `per_page > 0`, in
that order, joined by `&`, and nothing else; for two positive inputs this is
`page=<page>&per_page=<per_page>`; an absent pagination leaves the query
unchanged. -/
theorem appendPagination_encode (page per_page : Int) :
    (appendPagination [] (NewPagination page per_page)).Encode
        = "&".intercalate ((if page > 0 then ["page=" ++ formatInt page] else [])
            ++ (if per_page > 0 then ["per_page=" ++ formatInt per_page] else []))
    ∧ (page > 0 → per_page > 0 →
        (appendPagination [] (NewPagination page per_page)).Encode
          = "page=" ++ formatInt page ++ "&per_page=" ++ formatInt per_page)
    ∧ ∀ query : Values, appendPagination query none = query := by
  have key : (appendPagination [] (NewPagination page per_page)).Encode
        = "&".intercalate ((if page > 0 then ["page=" ++ formatInt page] else [])
            ++ (if per_page > 0 then ["per_page=" ++ formatInt per_page] else [])) := by
    have e1 : QueryEscape "page" = "page" := by decide
    have e2 : QueryEscape "per_page" = "per_page" := by decide
    by_cases hp : page > 0 <;> by_cases hq : per_page > 0
    · have h0 : ¬ (page = 0 ∧ per_page = 0) := by omega
      simp only [NewPagination, h0, hp, hq, if_true, if_false, appendPagination, Add_nil]
      show Values.Encode [("page", [formatInt page]), ("per_page", [formatInt per_page])] = _
      rw [Encode_two _ _ _ _ (by decide) (by decide), e1, e2, QueryEscape_formatInt,
        QueryEscape_formatInt]
      simp [String.intercalate, String.intercalate.go, String.append_assoc]
    · have h0 : ¬ (page = 0 ∧ per_page = 0) := by omega
      simp only [NewPagination, h0, hp, hq, if_true, if_false, appendPagination, Add_nil]
      rw [Encode_one, e1, QueryEscape_formatInt]
      simp [String.intercalate, String.intercalate.go]
    · have h0 : ¬ (page = 0 ∧ per_page = 0) := by omega
      simp only [NewPagination, h0, hp, hq, if_true, if_false, appendPagination, Add_nil]
      rw [Encode_one, e2, QueryEscape_formatInt]
      simp [String.intercalate, String.intercalate.go]
    · by_cases h0 : page = 0 ∧ per_page = 0
      · simp [NewPagination, h0, appendPagination, Encode_nil, String.intercalate]
      · simp [NewPagination, h0, hp, hq, appendPagination, Encode_nil, String.intercalate]
  refine ⟨key, ?_, fun _ => rfl⟩
  intro hp hq
  have amp : ∀ s : String, "&" ++ ("per_page=" ++ s) = "&per_page=" ++ s := by
    intro s
    rw [← String.append_assoc]
    rfl
  rw [key]
  simp [hp, hq, String.intercalate, String.intercalate.go, String.append_assoc, amp]


theorem appendPagination_encode_witness :
    (appendPagination [] (NewPagination 3 25)).Encode
      = "page=" ++ formatInt 3 ++ "&per_page=" ++ formatInt 25 :=
  (appendPagination_encode 3 25).2.1 (by decide) (by decide)

/-- Claim C9: `appendTimeFilter` leaves the query unchanged when the filter is
absent; otherwise it adds under `before` the Unix seconds of `Before` only if
`Before` is set, under `after` the Unix seconds of `After` only if `After` is
set, and leaves all other entries as they are; from an empty query with both set
the encoded query is `after=<epochAfter>&before=<epochBefore>`. -/
theorem appendTimeFilter_spec (query : Values) (tf : TimeFilter) (before after : Time) :
    appendTimeFilter query none = query
    ∧ (∀ key, (appendTimeFilter query (some tf)).lookup key
        = query.lookup key
          ++ (if key = "before" then (tf.Before.map fun t => formatInt t.Unix).toList else [])
          ++ (if key = "after" then (tf.After.map fun t => formatInt t.Unix).toList else []))
    ∧ (appendTimeFilter query (some tf)).filter (fun e => e.1 != "before" && e.1 != "after")
        = query.filter (fun e => e.1 != "before" && e.1 != "after")
    ∧ (appendTimeFilter [] (some { Before := some before, After := some after })).Encode
        = "after=" ++ formatInt after.Unix ++ "&before=" ++ formatInt before.Unix := by
  refine ⟨rfl, ?_, ?_, ?_⟩
  · intro key
    obtain ⟨b, a⟩ := tf
    cases b <;> cases a <;> simp [appendTimeFilter, lookup_Add]
  · obtain ⟨b, a⟩ := tf
    have hb := fun (q : Values) (x : String) =>
      filter_Add q "before" x (fun k => k != "before" && k != "after") (by decide)
    have ha := fun (q : Values) (x : String) =>
      filter_Add q "after" x (fun k => k != "before" && k != "after") (by decide)
    cases b <;> cases a <;> simp only [appendTimeFilter, ha, hb]
  · have e1 : QueryEscape "after" = "after" := by decide
    have e2 : QueryEscape "before" = "before" := by decide
    have amp : ∀ s : String, "&" ++ ("before=" ++ s) = "&before=" ++ s := by
      intro s
      rw [← String.append_assoc]
      rfl
    simp only [appendTimeFilter, Add_nil]
    show Values.Encode [("before", [formatInt before.Unix]), ("after", [formatInt after.Unix])] = _
    rw [Encode_two_swapped _ _ _ _ (by decide) (by decide), e1, e2, QueryEscape_formatInt,
      QueryEscape_formatInt]
    simp [String.append_assoc, amp]

/-- Claim C8, counterexample: `NewPagination (-1) 0` has both inputs at most
zero and is a present pagination with no field set, not the absent one. -/
theorem NewPagination_negative_present :
    NewPagination (-1) 0 = some { Page := none, PerPage := none }
    ∧ NewPagination (-1) 0 ≠ none := by
  decide

/-- Claim C8, amended: with both inputs at most zero, `NewPagination` is absent
exactly when both inputs are zero; otherwise it is a present pagination with
neither field set; in both cases appending it to a query adds nothing. -/
theorem NewPagination_nonpositive (page per_page : Int) (hp : page ≤ 0) (hq : per_page ≤ 0) :
    (NewPagination page per_page = none ↔ page = 0 ∧ per_page = 0)
    ∧ (¬ (page = 0 ∧ per_page = 0) →
        NewPagination page per_page = some { Page := none, PerPage := none })
    ∧ ∀ query : Values, appendPagination query (NewPagination page per_page) = query := by
  have h1 : ¬ page > 0 := by omega
  have h2 : ¬ per_page > 0 := by omega
  by_cases h0 : page = 0 ∧ per_page = 0
  · simp [NewPagination, h0, appendPagination]
  · simp [NewPagination, h0, h1, h2, appendPagination]

theorem NewPagination_nonpositive_witness :
    (NewPagination (-2) 0 = none ↔ (-2 : Int) = 0 ∧ (0 : Int) = 0)
    ∧ (¬ ((-2 : Int) = 0 ∧ (0 : Int) = 0) →
        NewPagination (-2) 0 = some { Page := none, PerPage := none })
    ∧ ∀ query : Values, appendPagination query (NewPagination (-2) 0) = query :=
  NewPagination_nonpositive (-2) 0 (by decide) (by decide)

/-- Claim C10, counterexample: when `Page` and `PerPage` point to the same
`int` holding 3, `NextPage` makes both read 4, so `PerPage` is not left
untouched; and at the largest `int` the page after `NextPage` is the smallest
`int`, not `p + 1`. -/
theorem NextPage_shared_pointee_and_maxInt :
    (PaginationPtr.load { Page := some 0, PerPage := some 0 } (fun _ => 3)).PerPage = some 3
    ∧ PaginationPtr.load { Page := some 0, PerPage := some 0 }
        (PaginationPtr.NextPage { Page := some 0, PerPage := some 0 } (fun _ => 3))
      = { Page := some 4, PerPage := some 4 }
    ∧ (PaginationPtr.load { Page := some 0, PerPage := some 1 }
        (PaginationPtr.NextPage { Page := some 0, PerPage := some 1 }
          (fun a => if a = 0 then 9223372036854775807 else 25))).Page
      = some (-9223372036854775808)
    ∧ (PaginationPtr.load { Page := some 0, PerPage := some 1 }
        (PaginationPtr.NextPage { Page := some 0, PerPage := some 1 }
          (fun a => if a = 0 then 9223372036854775807 else 25))).Page
      ≠ some (9223372036854775807 + 1) := by
  decide

/-- Claim C10, amended: `NextPage` has an effect only if the page is set: a page
`p` becomes `p + 1` in 64 bit two's complement arithmetic, which is `p + 1` for
every `int` below the largest one and the smallest `int` at the largest one, and
no other `int` variable is written; an unset page leaves everything unchanged;
`PerPage` is left untouched whenever it does not point to the same `int` as
`Page`, and reads the new page when it does. -/
theorem NextPage_spec (pagination : PaginationPtr) (mem : Memory) :
    (∀ a, pagination.Page = some a →
        (pagination.load (pagination.NextPage mem)).Page = some (wrapInt (mem a + 1))
        ∧ (minInt ≤ mem a → mem a < maxInt →
            (pagination.load (pagination.NextPage mem)).Page = some (mem a + 1))
        ∧ (mem a = maxInt → (pagination.load (pagination.NextPage mem)).Page = some minInt)
        ∧ (∀ b, b ≠ a → pagination.NextPage mem b = mem b))
    ∧ (pagination.Page = none → pagination.NextPage mem = mem)
    ∧ (pagination.PerPage ≠ pagination.Page →
        (pagination.load (pagination.NextPage mem)).PerPage = (pagination.load mem).PerPage)
    ∧ (pagination.PerPage = pagination.Page →
        (pagination.load (pagination.NextPage mem)).PerPage
          = (pagination.load (pagination.NextPage mem)).Page) := by
  obtain ⟨pg, pp⟩ := pagination
  refine ⟨?_, ?_, ?_, ?_⟩
  · intro a ha
    simp only at ha
    subst ha
    have hpage : (PaginationPtr.load { Page := some a, PerPage := pp }
        (PaginationPtr.NextPage { Page := some a, PerPage := pp } mem)).Page
        = some (wrapInt (mem a + 1)) := by
      simp [PaginationPtr.load, PaginationPtr.NextPage]
    refine ⟨hpage, ?_, ?_, ?_⟩
    · intro hlo hhi
      rw [hpage]
      simp only [wrapInt, minInt, maxInt] at *
      congr 1
      omega
    · intro hmax
      have hw : wrapInt (maxInt + 1) = minInt := by decide
      rw [hpage, hmax, hw]
    · intro b hb
      simp [PaginationPtr.NextPage, Function.update_noteq hb]
  · intro h
    simp only at h
    subst h
    rfl
  · intro hne
    cases pg with
    | none => rfl
    | some a =>
      cases pp with
      | none => rfl
      | some b =>
        have hb : b ≠ a := fun e => hne (by rw [e])
        simp [PaginationPtr.load, PaginationPtr.NextPage, Function.update_noteq hb]
  · intro heq
    simp only at heq
    subst heq
    rfl

theorem NextPage_spec_witness :
    (PaginationPtr.load { Page := some 0, PerPage := some 1 }
        (PaginationPtr.NextPage { Page := some 0, PerPage := some 1 }
          (fun a => if a = 0 then 3 else 25))).Page = some (3 + 1)
    ∧ (PaginationPtr.load { Page := some 0, PerPage := some 1 }
        (PaginationPtr.NextPage { Page := some 0, PerPage := some 1 }
          (fun a => if a = 0 then 3 else 25))).PerPage
      = (PaginationPtr.load { Page := some 0, PerPage := some 1 }
          (fun a => if a = 0 then 3 else 25)).PerPage :=
  ⟨((NextPage_spec { Page := some 0, PerPage := some 1 }
      (fun a => if a = 0 then 3 else 25)).1 0 rfl).2.1 (by decide) (by decide),
    (NextPage_spec { Page := some 0, PerPage := some 1 }
      (fun a => if a = 0 then 3 else 25)).2.2.1 (by decide)⟩

/-! ## The empty string fixup -/

theorem bytesOf_quotes : bytesOf "\"\"" = [dquote, dquote] := by decide

theorem bytesOf_braces : bytesOf "\x7b\x7d" = [123, 125] := by decide

theorem clean_eq (content : List Byte) :
    cleanEmptyStrings content = replaceFrom [dquote, dquote] [123, 125] 0 content := by
  unfold cleanEmptyStrings ReplaceAll
  rw [bytesOf_quotes, bytesOf_braces]

theorem clean_nil : cleanEmptyStrings [] = [] := rfl

theorem clean_quotes (rest : List Byte) :
    cleanEmptyStrings (dquote :: dquote :: rest) = 123 :: 125 :: cleanEmptyStrings rest := by
  rw [clean_eq, clean_eq]
  simp [replaceFrom, List.isPrefixOf]

theorem clean_single (c : Byte) : cleanEmptyStrings [c] = [c] := by
  rw [clean_eq]
  simp [replaceFrom, List.isPrefixOf]

theorem clean_keep (c d : Byte) (rest : List Byte) (h : ¬ (c = dquote ∧ d = dquote)) :
    cleanEmptyStrings (c :: d :: rest) = c :: cleanEmptyStrings (d :: rest) := by
  have h3 : List.isPrefixOf [dquote, dquote] (c :: d :: rest) = false := by
    by_cases hc : dquote = c
    · have hd : ¬ dquote = d := fun e => h ⟨hc.symm, e.symm⟩
      simp [List.isPrefixOf, hd]
    · simp [List.isPrefixOf, hc]
  rw [clean_eq, clean_eq, replaceFrom, h3]
  simp

theorem hasEmptyString_cons (c d : Byte) (rest : List Byte) :
    hasEmptyString (c :: d :: rest)
      = ((c == dquote && d == dquote) || hasEmptyString (d :: rest)) := rfl

theorem hasEmptyString_cons_other (c : Byte) (l : List Byte) (h : c ≠ dquote) :
    hasEmptyString (c :: l) = hasEmptyString l := by
  cases l with
  | nil => rfl
  | cons d rest =>
    have hc : (c == dquote) = false := by simpa using h
    rw [hasEmptyString_cons, hc]
    simp

theorem clean_props (n : Nat) : ∀ content : List Byte, content.length ≤ n →
    (cleanEmptyStrings content).length = content.length
    ∧ hasEmptyString (cleanEmptyStrings content) = false
    ∧ (hasEmptyString content = false → cleanEmptyStrings content = content)
    ∧ (content.head? ≠ some dquote → (cleanEmptyStrings content).head? ≠ some dquote) := by
  induction n with
  | zero =>
    intro content h
    have : content = [] := List.length_eq_zero.mp (Nat.le_zero.mp h)
    subst this
    simp [clean_nil, hasEmptyString]
  | succ n ih =>
    intro content h
    match content, h with
    | [], _ => simp [clean_nil, hasEmptyString]
    | [c], _ => simp [clean_single, hasEmptyString]
    | c :: d :: rest, h =>
      by_cases hq : c = dquote ∧ d = dquote
      · obtain ⟨hc, hd⟩ := hq
        subst hc hd
        have hlen : rest.length ≤ n := by simp at h; omega
        obtain ⟨i1, i2, _, _⟩ := ih rest hlen
        rw [clean_quotes]
        refine ⟨by simp [i1], ?_, ?_, ?_⟩
        · rw [hasEmptyString_cons_other _ _ (by decide), hasEmptyString_cons_other _ _ (by decide)]
          exact i2
        · intro hno
          rw [hasEmptyString_cons] at hno
          simp at hno
        · intro hh
          simp at hh
      · have hlen : (d :: rest).length ≤ n := by simp at h ⊢; omega
        obtain ⟨i1, i2, i3, i4⟩ := ih (d :: rest) hlen
        rw [clean_keep c d rest hq]
        refine ⟨by simp [i1], ?_, ?_, ?_⟩
        · by_cases hc : c = dquote
          · have hd : d ≠ dquote := fun e => hq ⟨hc, e⟩
            have hhead : (cleanEmptyStrings (d :: rest)).head? ≠ some dquote :=
              i4 (by simpa using hd)
            cases hcl : cleanEmptyStrings (d :: rest) with
            | nil => rfl
            | cons x xs =>
              rw [hcl] at hhead i2
              have hx : x ≠ dquote := by simpa using hhead
              have hxb : (x == dquote) = false := by simpa using hx
              rw [hasEmptyString_cons, hxb, i2]
              simp
          · rw [hasEmptyString_cons_other _ _ hc]
            exact i2
        · intro hno
          rw [hasEmptyString_cons] at hno
          have hrest : hasEmptyString (d :: rest) = false := by
            cases hv : hasEmptyString (d :: rest) with
            | false => rfl
            | true => rw [hv] at hno; simp at hno
          rw [i3 hrest]
        · intro hh
          simpa using hh

/-- Claim C5: for every byte payload `cleanEmptyStrings` replaces the two
adjacent double quotes it finds, from left to right, by an opening and a closing
brace: the result has the length of the input, contains no two adjacent double
quotes, and is the input when the input contains none. -/
theorem cleanEmptyStrings_spec (content : List Byte) :
    (cleanEmptyStrings content).length = content.length
    ∧ hasEmptyString (cleanEmptyStrings content) = false
    ∧ (hasEmptyString content = false → cleanEmptyStrings content = content)
    ∧ cleanEmptyStrings (dquote :: dquote :: content)
        = 123 :: 125 :: cleanEmptyStrings content
    ∧ (∀ c d, ¬ (c = dquote ∧ d = dquote) →
        cleanEmptyStrings (c :: d :: content) = c :: cleanEmptyStrings (d :: content)) := by
  obtain ⟨h1, h2, h3, _⟩ := clean_props content.length content (Nat.le_refl _)
  exact ⟨h1, h2, h3, clean_quotes content, fun c d h => clean_keep c d content h⟩

theorem cleanEmptyStrings_spec_witness :
    cleanEmptyStrings (bytesOf "\x7b\"a\":1\x7d") = bytesOf "\x7b\"a\":1\x7d" :=
  (cleanEmptyStrings_spec (bytesOf "\x7b\"a\":1\x7d")).2.2.1 (by decide)



/-! ## Formatting -/

theorem doPrintf_cons_text (lib : Lib) (c : Char) (rest : List Char) (a : List Arg)
    (hc : c ≠ '%') : doPrintf lib (c :: rest) a = c :: doPrintf lib rest a := by
  rw [doPrintf.eq_def]
  simp only [if_neg hc]

theorem doPrintf_text (lib : Lib) (pre rest : List Char) (a : List Arg) (h : '%' ∉ pre) :
    doPrintf lib (pre ++ rest) a = pre ++ doPrintf lib rest a := by
  induction pre with
  | nil => rfl
  | cons c cs ih =>
    have hc : c ≠ '%' := fun e => h (e ▸ List.mem_cons_self _ _)
    have hcs : '%' ∉ cs := fun m => h (List.mem_cons_of_mem _ m)
    rw [List.cons_append, doPrintf_cons_text lib c _ a hc, ih hcs, List.cons_append]

theorem doPrintf_plain (lib : Lib) (l : List Char) (h : '%' ∉ l) : doPrintf lib l [] = l := by
  have := doPrintf_text lib l [] [] h
  simpa [doPrintf, extraArgs] using this

theorem Sprintf_status (lib : Lib) (code : Int) (message : String) :
    Sprintf lib "%d %s" [.int code, .str message] = formatInt code ++ " " ++ message := by
  apply String.ext
  simp [Sprintf, doPrintf, printArg, startsSpec, extraArgs, Arg.value]

theorem Sprintf_detail (lib : Lib) (m r f c : String) :
    Sprintf lib "%s: %s %s %s" [.str m, .str r, .str f, .str c]
      = m ++ ": " ++ r ++ " " ++ f ++ " " ++ c := by
  apply String.ext
  simp [Sprintf, doPrintf, printArg, startsSpec, extraArgs, Arg.value]

/-- Claim C6, counterexample: the path `/xxx/%s/yyy` given without format
arguments is not appended verbatim, its directive is printed as a missing
operand. -/
theorem apiEndpoint_template_without_args :
    apiEndpoint sampleLib (clientForTest false unreachableHost) "/xxx/%s/yyy" []
      = BASE_URL ++ "/xxx/%!s(MISSING)/yyy"
    ∧ apiEndpoint sampleLib (clientForTest false unreachableHost) "/xxx/%s/yyy" []
      ≠ BASE_URL ++ "/xxx/%s/yyy" := by
  decide

/-- Claim C6, amended: for a base URL without a percent sign, `apiEndpoint` is
the base URL followed by the path for every path without a percent sign given
without format arguments, and the base URL followed by `/xxx/12345/yyy` for the
template `/xxx/%s/yyy` with the argument `12345`. -/
theorem apiEndpoint_spec {σ : Type} (lib : Lib) (client : Client σ) (path : String)
    (hbase : '%' ∉ client.baseUrl.data) :
    ('%' ∉ path.data → apiEndpoint lib client path [] = client.baseUrl ++ path)
    ∧ apiEndpoint lib client "/xxx/%s/yyy" [.str "12345"] = client.baseUrl ++ "/xxx/12345/yyy" := by
  constructor
  · intro hpath
    apply String.ext
    have hall : '%' ∉ (client.baseUrl ++ path).data := by
      simp [String.data_append, hbase, hpath]
    simp only [apiEndpoint, Sprintf]
    exact doPrintf_plain lib _ hall
  · apply String.ext
    simp only [apiEndpoint, Sprintf, String.data_append]
    rw [doPrintf_text lib _ _ _ hbase]
    rfl

theorem apiEndpoint_spec_witness :
    '%' ∉ (clientForTest false unreachableHost).baseUrl.data
    ∧ ('%' ∉ "/xxx".data →
        apiEndpoint sampleLib (clientForTest false unreachableHost) "/xxx" []
          = (clientForTest false unreachableHost).baseUrl ++ "/xxx") :=
  ⟨by decide, (apiEndpoint_spec sampleLib (clientForTest false unreachableHost) "/xxx"
    (by decide)).1⟩


/-! ## The request pipeline -/

theorem sendRequest_token_error {σ : Type} (lib : Lib) (client : Client σ) (req : Request)
    (w : World σ) (err : GoError) (e1 : σ) (htok : client.tokenSource w.ext = (.error err, e1)) :
    sendRequest lib client req w = (([], some err), { ext := e1, sent := w.sent }) := by
  simp [sendRequest, addToken, htok]

theorem sendRequest_transport_error {σ : Type} (lib : Lib) (client : Client σ) (req : Request)
    (w : World σ) (token : Token) (err : GoError) (e1 e2 : σ)
    (htok : client.tokenSource w.ext = (.ok token, e1))
    (hdo : client.httpClient (token.SetAuthHeader lib req) e1 = (.error err, e2)) :
    sendRequest lib client req w
      = (([], some err), { ext := e2, sent := w.sent ++ [token.SetAuthHeader lib req] }) := by
  simp [sendRequest, addToken, htok, httpDo, hdo]

theorem sendRequest_response {σ : Type} (lib : Lib) (client : Client σ) (req : Request)
    (w : World σ) (token : Token) (res : Response) (e1 e2 : σ)
    (htok : client.tokenSource w.ext = (.ok token, e1))
    (hdo : client.httpClient (token.SetAuthHeader lib req) e1 = (.ok res, e2)) :
    sendRequest lib client req w
      = (if res.StatusCode > 399 then ([], some (faultReponseAsError lib res))
          else (res.Body.data, res.Body.err),
        { ext := e2, sent := w.sent ++ [token.SetAuthHeader lib req] }) := by
  by_cases h : res.StatusCode > 399 <;>
    simp [sendRequest, addToken, htok, httpDo, hdo, h, ReadAll]

theorem faultReponseAsError_msg (lib : Lib) (res : Response) :
    (faultReponseAsError lib res).msg
      = formatInt res.StatusCode ++ " "
        ++ (Unmarshal lib lib.decodeFault res.Body.data { Errors := [], Message := "" }).1.Message
        ++ (match (Unmarshal lib lib.decodeFault res.Body.data
              { Errors := [], Message := "" }).1.Errors with
            | [] => ""
            | e :: _ => ": " ++ e.Resource ++ " " ++ e.Field ++ " " ++ e.Code) := by
  unfold faultReponseAsError
  simp only [ReadAll]
  cases (Unmarshal lib lib.decodeFault res.Body.data { Errors := [], Message := "" }).1.Errors with
  | nil => simp [Sprintf_status]
  | cons e rest => simp [Sprintf_status, Sprintf_detail, String.append_assoc]

theorem Unmarshal_invalid {α : Type} (lib : Lib) (decode : List Byte → α → α × Option GoError)
    (data : List Byte) (v : α) (err : GoError) (h : lib.checkValid data = some err) :
    Unmarshal lib decode data v = (v, some err) := by
  simp [Unmarshal, h]

/-- Claim C1: when the token source and the transport succeed with a response,
`sendRequest` returns a fault error exactly when the status code is at least 400
(below 400 it returns what reading the body gives); the message of the error is
the status code, a space and the message of the decoded fault, followed by a
colon and the resource, field and code of the first structured error only if
there is one; a body that is not valid JSON leaves the message empty. -/
theorem sendRequest_fault {σ : Type} (lib : Lib) (client : Client σ) (req : Request)
    (w : World σ) (token : Token) (res : Response) (e1 e2 : σ)
    (htok : client.tokenSource w.ext = (.ok token, e1))
    (hdo : client.httpClient (token.SetAuthHeader lib req) e1 = (.ok res, e2)) :
    (res.StatusCode ≥ 400 →
      (sendRequest lib client req w).1
        = ([], some (GoError.mk
            (formatInt res.StatusCode ++ " "
            ++ (Unmarshal lib lib.decodeFault res.Body.data
                  { Errors := [], Message := "" }).1.Message
            ++ (match (Unmarshal lib lib.decodeFault res.Body.data
                  { Errors := [], Message := "" }).1.Errors with
                | [] => ""
                | e :: _ => ": " ++ e.Resource ++ " " ++ e.Field ++ " " ++ e.Code)))))
    ∧ (res.StatusCode < 400 →
        (sendRequest lib client req w).1 = (res.Body.data, res.Body.err))
    ∧ (res.StatusCode ≥ 400 → ∀ err, lib.checkValid res.Body.data = some err →
        (sendRequest lib client req w).1
          = ([], some (GoError.mk (formatInt res.StatusCode ++ " "))))
    ∧ (res.Body.err = none →
        ((sendRequest lib client req w).1.2 ≠ none ↔ res.StatusCode ≥ 400)) := by
  rw [sendRequest_response lib client req w token res e1 e2 htok hdo]
  have hmsg := faultReponseAsError_msg lib res
  have hfault : ∀ m, (faultReponseAsError lib res).msg = m → faultReponseAsError lib res = ⟨m⟩ := by
    intro m hm
    cases hf : faultReponseAsError lib res
    rw [hf] at hm
    simp only at hm
    rw [hm]
  refine ⟨?_, ?_, ?_, ?_⟩
  · intro h
    have h1 : res.StatusCode > 399 := by omega
    simp only [h1, if_true]
    rw [hfault _ hmsg]
  · intro h
    have h1 : ¬ res.StatusCode > 399 := by omega
    simp only [h1, if_false]
  rotate_left
  · intro hbody
    by_cases h1 : res.StatusCode > 399
    · have h2 : res.StatusCode ≥ 400 := by omega
      simp [h1, h2]
    · have h2 : ¬ res.StatusCode ≥ 400 := by omega
      simp [h1, h2, hbody]
  · intro h err hv
    have h1 : res.StatusCode > 399 := by omega
    simp only [h1, if_true]
    rw [Unmarshal_invalid lib _ _ _ err hv] at hmsg
    simp only [String.append_empty] at hmsg
    rw [hfault _ hmsg]


theorem sendRequest_fault_witness :
    (sendRequest sampleLib (clientForTest false serveError) (NewRequest "GET" "/athlete")
        freshWorld).1
      = ([], some (GoError.mk "500 Bad Request: Athlete id invalid")) :=
  (sendRequest_fault sampleLib (clientForTest false serveError) (NewRequest "GET" "/athlete")
    freshWorld { AccessToken := "<ACCESS_TOKEN>", TokenType := "Bearer" }
    { StatusCode := 500, Body := { data := faultJson, err := none } } () () rfl rfl).1
    (by decide)

/-- Claim C2: if the token source fails, `sendRequest` returns its error for
every request, and so do `AuthorizedAthlete`, `AthleteActivities` and
`AthleteStats`; the list of requests handed to the transport is unchanged. -/
theorem token_failure_sends_nothing {σ : Type} (lib : Lib) (client : Client σ) (w : World σ)
    (err : GoError) (e1 : σ) (htok : client.tokenSource w.ext = (.error err, e1)) :
    (∀ req, sendRequest lib client req w = (([], some err), { ext := e1, sent := w.sent }))
    ∧ AuthorizedAthlete lib client w = ((none, some err), { ext := e1, sent := w.sent })
    ∧ (∀ timeFilter pagination, AthleteActivities lib client timeFilter pagination w
        = ((none, some err), { ext := e1, sent := w.sent }))
    ∧ AthleteStats lib client w = ((none, some err), client, { ext := e1, sent := w.sent }) := by
  have hsend := fun req => sendRequest_token_error lib client req w err e1 htok
  have hA : AuthorizedAthlete lib client w = ((none, some err), { ext := e1, sent := w.sent }) := by
    simp [AuthorizedAthlete, hsend]
  refine ⟨hsend, hA, ?_, ?_⟩
  · intro timeFilter pagination
    simp [AthleteActivities, hsend]
  · cases hid : client.athleteId with
    | none => simp [AthleteStats, getAthleteId, hid, hA]
    | some id => simp [AthleteStats, getAthleteId, hid, hsend]

theorem token_failure_sends_nothing_witness :
    AthleteStats sampleLib (clientForTest true (serveBody athleteJson)) freshWorld
      = ((none, some (GoError.mk "An Error has occurred.")),
          clientForTest true (serveBody athleteJson), { ext := (), sent := [] }) :=
  (token_failure_sends_nothing sampleLib (clientForTest true (serveBody athleteJson)) freshWorld
    (GoError.mk "An Error has occurred.") () rfl).2.2.2

theorem AuthorizedAthlete_record_or_error {σ : Type} (lib : Lib) (client : Client σ)
    (w : World σ) :
    (AuthorizedAthlete lib client w).1.2 = none →
      ∃ detailedAthlete, (AuthorizedAthlete lib client w).1.1 = some detailedAthlete := by
  unfold AuthorizedAthlete
  simp only
  split
  · intro h
    simp at h
  · intro _
    exact ⟨_, rfl⟩

/-- Claim C4: `getAthleteId` returns an id that is set without any lookup and
without changing client or world; with no id set and a successful lookup it
returns and stores the id of the athlete, so that every later call returns it
without a lookup; with a failed lookup it returns the error and the id stays
unset. -/
theorem getAthleteId_caches {σ : Type} (lib : Lib) (client : Client σ) (w : World σ) :
    (∀ id, client.athleteId = some id →
      getAthleteId lib client w = ((some id, none), client, w))
    ∧ (client.athleteId = none → (AuthorizedAthlete lib client w).1.2 = none →
        ∃ detailedAthlete,
          (AuthorizedAthlete lib client w).1.1 = some detailedAthlete
          ∧ getAthleteId lib client w
              = ((some detailedAthlete.Id, none),
                  { client with athleteId := some detailedAthlete.Id },
                  (AuthorizedAthlete lib client w).2)
          ∧ ∀ later : World σ,
              getAthleteId lib { client with athleteId := some detailedAthlete.Id } later
                = ((some detailedAthlete.Id, none),
                    { client with athleteId := some detailedAthlete.Id }, later))
    ∧ (client.athleteId = none → ∀ err, (AuthorizedAthlete lib client w).1.2 = some err →
        getAthleteId lib client w = ((none, some err), client, (AuthorizedAthlete lib client w).2)
        ∧ (getAthleteId lib client w).2.1.athleteId = none) := by
  refine ⟨?_, ?_, ?_⟩
  · intro id hid
    simp [getAthleteId, hid]
  · intro hid hok
    obtain ⟨rec, hrec⟩ := AuthorizedAthlete_record_or_error lib client w hok
    refine ⟨rec, hrec, ?_, ?_⟩
    · rcases hres : AuthorizedAthlete lib client w with ⟨⟨r, e⟩, w1⟩
      rw [hres] at hok hrec
      simp only at hok hrec
      subst hok hrec
      simp [getAthleteId, hid, hres]
    · intro later
      simp [getAthleteId]
  · intro hid err herr
    rcases hres : AuthorizedAthlete lib client w with ⟨⟨r, e⟩, w1⟩
    rw [hres] at herr
    simp only at herr
    subst herr
    simp [getAthleteId, hid, hres]

theorem getAthleteId_caches_witness :
    getAthleteId sampleLib ((clientForTest false unreachableHost).WithAthleteId 12345567890)
        freshWorld
      = ((some 12345567890, none),
          (clientForTest false unreachableHost).WithAthleteId 12345567890, freshWorld)
    ∧ ∃ detailedAthlete,
        (AuthorizedAthlete sampleLib (clientForTest false (serveBody athleteJson))
            freshWorld).1.1 = some detailedAthlete
        ∧ getAthleteId sampleLib (clientForTest false (serveBody athleteJson)) freshWorld
            = ((some detailedAthlete.Id, none),
                { clientForTest false (serveBody athleteJson) with
                    athleteId := some detailedAthlete.Id },
                (AuthorizedAthlete sampleLib (clientForTest false (serveBody athleteJson))
                  freshWorld).2)
        ∧ ∀ later : World Unit,
            getAthleteId sampleLib
                { clientForTest false (serveBody athleteJson) with
                    athleteId := some detailedAthlete.Id } later
              = ((some detailedAthlete.Id, none),
                  { clientForTest false (serveBody athleteJson) with
                      athleteId := some detailedAthlete.Id }, later) :=
  ⟨(getAthleteId_caches sampleLib
      ((clientForTest false unreachableHost).WithAthleteId 12345567890) freshWorld).1
      12345567890 rfl,
    (getAthleteId_caches sampleLib (clientForTest false (serveBody athleteJson))
      freshWorld).2.1 rfl (by decide)⟩

theorem getAthleteId_id_or_error {σ : Type} (lib : Lib) (client : Client σ) (w : World σ) :
    (getAthleteId lib client w).1.2 = none →
      ∃ id, (getAthleteId lib client w).1.1 = some id := by
  cases hid : client.athleteId with
  | some id =>
    intro _
    exact ⟨id, by simp [getAthleteId, hid]⟩
  | none =>
    rcases hres : AuthorizedAthlete lib client w with ⟨⟨r, e⟩, w1⟩
    have hrec := AuthorizedAthlete_record_or_error lib client w
    rw [hres] at hrec
    simp only at hrec
    cases e with
    | some err =>
      intro h
      simp [getAthleteId, hid, hres] at h
    | none =>
      obtain ⟨d, hd⟩ := hrec rfl
      subst hd
      intro _
      exact ⟨d.Id, by simp [getAthleteId, hid, hres]⟩

/-- Claim C3, counterexample: a success response whose body does not decode
makes `AuthorizedAthlete` return a record together with an error. -/
theorem AuthorizedAthlete_decode_error_keeps_record :
    (AuthorizedAthlete sampleLib (clientForTest false (serveBody (bytesOf "oops"))) freshWorld).1
      = (some { Id := 0 },
          some (GoError.mk "invalid character looking for beginning of value")) := by
  decide

/-- Claim C3, amended: on every path where `sendRequest` returns an error (token
source failure, transport failure, status code of at least 400) and on a failed
athlete lookup, the three operations return the error and no record; when a
success body does not decode they return the decode error together with the
record as far as it was decoded; no operation returns neither a record nor an
error. -/
theorem failure_results {σ : Type} (lib : Lib) (client : Client σ) (w : World σ)
    (timeFilter : Option TimeFilter) (pagination : Option Pagination) :
    (∀ req,
      ((∃ err e1, client.tokenSource w.ext = (.error err, e1))
        ∨ (∃ token e1 err e2, client.tokenSource w.ext = (.ok token, e1)
            ∧ client.httpClient (token.SetAuthHeader lib req) e1 = (.error err, e2))
        ∨ (∃ token e1 res e2, client.tokenSource w.ext = (.ok token, e1)
            ∧ client.httpClient (token.SetAuthHeader lib req) e1 = (.ok res, e2)
            ∧ res.StatusCode ≥ 400)) →
      ∃ err, (sendRequest lib client req w).1 = ([], some err))
    ∧ (∀ err, (sendRequest lib client (athleteRequest lib client) w).1.2 = some err →
        (AuthorizedAthlete lib client w).1 = (none, some err))
    ∧ (∀ err, (sendRequest lib client
          (activitiesRequest lib client timeFilter pagination) w).1.2 = some err →
        (AthleteActivities lib client timeFilter pagination w).1 = (none, some err))
    ∧ (∀ err, (getAthleteId lib client w).1.2 = some err →
        (AthleteStats lib client w).1 = (none, some err))
    ∧ (∀ id client1 w1 err, getAthleteId lib client w = ((some id, none), client1, w1) →
        (sendRequest lib client1 (statsRequest lib client1 id) w1).1.2 = some err →
        (AthleteStats lib client w).1 = (none, some err))
    ∧ (∀ body jsonErr, (sendRequest lib client (athleteRequest lib client) w).1 = (body, none) →
        (Unmarshal lib lib.decodeAthlete body { Id := 0 }).2 = some jsonErr →
        (AuthorizedAthlete lib client w).1
          = (some (Unmarshal lib lib.decodeAthlete body { Id := 0 }).1, some jsonErr))
    ∧ (∀ body jsonErr,
        (sendRequest lib client (activitiesRequest lib client timeFilter pagination) w).1
          = (body, none) →
        (Unmarshal lib lib.decodeActivities body []).2 = some jsonErr →
        (AthleteActivities lib client timeFilter pagination w).1
          = (some (Unmarshal lib lib.decodeActivities body []).1, some jsonErr))
    ∧ (∀ id client1 w1 body jsonErr,
        getAthleteId lib client w = ((some id, none), client1, w1) →
        (sendRequest lib client1 (statsRequest lib client1 id) w1).1 = (body, none) →
        (Unmarshal lib lib.decodeStats (cleanEmptyStrings body) default).2 = some jsonErr →
        (AthleteStats lib client w).1
          = (some (Unmarshal lib lib.decodeStats (cleanEmptyStrings body) default).1,
              some jsonErr))
    ∧ ((AuthorizedAthlete lib client w).1.1 = none → (AuthorizedAthlete lib client w).1.2 ≠ none)
    ∧ ((AthleteActivities lib client timeFilter pagination w).1.1 = none →
        (AthleteActivities lib client timeFilter pagination w).1.2 ≠ none)
    ∧ ((AthleteStats lib client w).1.1 = none → (AthleteStats lib client w).1.2 ≠ none) := by
  refine ⟨?_, ?_, ?_, ?_, ?_, ?_, ?_, ?_, ?_, ?_, ?_⟩
  · intro req hfail
    rcases hfail with ⟨err, e1, htok⟩ | ⟨token, e1, err, e2, htok, hdo⟩
      | ⟨token, e1, res, e2, htok, hdo, hcode⟩
    · exact ⟨err, by rw [sendRequest_token_error lib client req w err e1 htok]⟩
    · exact ⟨err, by rw [sendRequest_transport_error lib client req w token err e1 e2 htok hdo]⟩
    · have h1 : res.StatusCode > 399 := by omega
      exact ⟨faultReponseAsError lib res, by
        rw [sendRequest_response lib client req w token res e1 e2 htok hdo]
        simp [h1]⟩
  · intro err h
    rcases hres : sendRequest lib client (athleteRequest lib client) w with ⟨⟨b, e⟩, w1⟩
    rw [hres] at h
    simp only at h
    subst h
    simp [AuthorizedAthlete, hres]
  · intro err h
    rcases hres : sendRequest lib client (activitiesRequest lib client timeFilter pagination) w
      with ⟨⟨b, e⟩, w1⟩
    rw [hres] at h
    simp only at h
    subst h
    simp [AthleteActivities, hres]
  · intro err h
    rcases hres : getAthleteId lib client w with ⟨⟨i, e⟩, c1, w1⟩
    rw [hres] at h
    simp only at h
    subst h
    simp [AthleteStats, hres]
  · intro id client1 w1 err hget h
    rcases hres : sendRequest lib client1 (statsRequest lib client1 id) w1 with ⟨⟨b, e⟩, w2⟩
    rw [hres] at h
    simp only at h
    subst h
    simp [AthleteStats, hget, hres]
  · intro body jsonErr hsend hjson
    rcases hres : sendRequest lib client (athleteRequest lib client) w with ⟨⟨b, e⟩, w1⟩
    rw [hres] at hsend
    simp only [Prod.mk.injEq] at hsend
    obtain ⟨hb, he⟩ := hsend
    subst hb he
    simp [AuthorizedAthlete, hres, hjson]
  · intro body jsonErr hsend hjson
    rcases hres : sendRequest lib client (activitiesRequest lib client timeFilter pagination) w
      with ⟨⟨b, e⟩, w1⟩
    rw [hres] at hsend
    simp only [Prod.mk.injEq] at hsend
    obtain ⟨hb, he⟩ := hsend
    subst hb he
    simp [AthleteActivities, hres, hjson]
  · intro id client1 w1 body jsonErr hget hsend hjson
    rcases hres : sendRequest lib client1 (statsRequest lib client1 id) w1 with ⟨⟨b, e⟩, w2⟩
    rw [hres] at hsend
    simp only [Prod.mk.injEq] at hsend
    obtain ⟨hb, he⟩ := hsend
    subst hb he
    simp [AthleteStats, hget, hres, hjson]
  · intro h
    rcases hres : sendRequest lib client (athleteRequest lib client) w with ⟨⟨b, e⟩, w1⟩
    cases e with
    | some err => simp [AuthorizedAthlete, hres]
    | none => simp [AuthorizedAthlete, hres] at h
  · intro h
    rcases hres : sendRequest lib client (activitiesRequest lib client timeFilter pagination) w
      with ⟨⟨b, e⟩, w1⟩
    cases e with
    | some err => simp [AthleteActivities, hres]
    | none => simp [AthleteActivities, hres] at h
  · intro h
    rcases hget : getAthleteId lib client w with ⟨⟨i, e⟩, c1, w1⟩
    cases e with
    | some err => simp [AthleteStats, hget]
    | none =>
      obtain ⟨id, hid⟩ := getAthleteId_id_or_error lib client w (by rw [hget])
      rw [hget] at hid
      simp only at hid
      subst hid
      rcases hres : sendRequest lib c1 (statsRequest lib c1 id) w1 with ⟨⟨b, e⟩, w2⟩
      cases e with
      | some err => simp [AthleteStats, hget, hres]
      | none => simp [AthleteStats, hget, hres] at h

theorem failure_results_witness :
    (AuthorizedAthlete sampleLib (clientForTest false serveError) freshWorld).1
      = (none, some (GoError.mk "500 Bad Request: Athlete id invalid")) :=
  (failure_results sampleLib (clientForTest false serveError) freshWorld none none).2.1
    (GoError.mk "500 Bad Request: Athlete id invalid") (by decide)

end Strava
